import Mathlib

/-!
Verification of the OAuth2 authorization-code-flow core of the repository
(source file src/core/oauth.ts): token-response parsing for code exchange
and refresh, authorization-URL construction, the callback-listener state
machine, and the .env updating helper.

The TypeScript source is shallowly embedded: JS nullable values become
Option, JS truthiness tests on strings and numbers become explicit helper
functions, the HTTP fetch is modelled by passing the token-endpoint
response as an argument, and the event-driven callback server becomes an
explicit state machine stepped by a list of events (request arrivals,
exchange completions, the 5-minute timer, a server startup error).
Timestamps are integers in milliseconds, mirroring Date.now().
-/

/-- Models the JS expression `a || b` where `a : string | undefined | null`
and `b : string`: the empty string and the missing value are falsy. -/
def jsOrStr (a : Option String) (b : String) : String :=
  match a with
  | none => b
  | some s => if s = "" then b else s

/-- Models the JS expression `a || b` for `a : number | undefined`:
zero and the missing value are falsy. -/
def jsOrNat (a : Option Nat) (b : Nat) : Nat :=
  match a with
  | none => b
  | some n => if n = 0 then b else n

/-- JS truthiness of a `string | null | undefined` value:
present and non-empty. -/
def truthyStr (a : Option String) : Bool :=
  match a with
  | none => false
  | some s => s != ""

/-- JS truthiness of a `number | undefined` value:
present and nonzero. -/
def truthyInt (a : Option Int) : Bool :=
  match a with
  | none => false
  | some n => n != 0

/-- The OAuthTokens result type of src/core/oauth.ts. `expiresAt` is an
absolute timestamp in milliseconds (JS Date holds epoch milliseconds). -/
structure OAuthTokens where
  accessToken : String
  refreshToken : Option String
  expiresIn : Option Int
  expiresAt : Option Int
  tokenType : Option String
  scope : Option String
deriving DecidableEq

/-- A token-endpoint HTTP response: status code, raw body text (used for
error messages) and the parsed JSON fields the source reads. -/
structure TokenResponse where
  status : Nat
  bodyText : String
  access_token : String
  refresh_token : Option String
  expires_in : Option Int
  token_type : Option String
  scope : Option String
deriving DecidableEq

/-- The `response.ok` predicate of fetch: status in the range 200-299. -/
def respOk (r : TokenResponse) : Bool :=
  200 ≤ r.status && r.status < 300

/-- The tokens object built by exchangeCodeForTokens from a 2xx response,
received at time `now` (ms): `expiresAt` is set to
`now + expires_in * 1000` only when `expires_in` is truthy. -/
def exchTokens (r : TokenResponse) (now : Int) : OAuthTokens :=
  { accessToken := r.access_token
    refreshToken := r.refresh_token
    expiresIn := r.expires_in
    tokenType := r.token_type
    scope := r.scope
    expiresAt :=
      if truthyInt r.expires_in then some (now + r.expires_in.getD 0 * 1000)
      else none }

/-- exchangeCodeForTokens, modelled on the token-endpoint response it
receives: non-2xx throws `Token exchange failed: status body`, otherwise
the parsed tokens are returned. -/
def exchangeCodeForTokens (r : TokenResponse) (now : Int) :
    Except String OAuthTokens :=
  if respOk r then .ok (exchTokens r now)
  else .error ("Token exchange failed: " ++ toString r.status ++ " " ++ r.bodyText)

/-- The tokens object built by refreshAccessToken from a 2xx response:
identical to the exchange case except that `refreshToken` falls back to
the input refresh token when the response field is falsy
(`data.refresh_token || refreshToken` in the source). -/
def refreshTokensResult (r : TokenResponse) (refreshToken : String)
    (now : Int) : OAuthTokens :=
  { accessToken := r.access_token
    refreshToken := some (jsOrStr r.refresh_token refreshToken)
    expiresIn := r.expires_in
    tokenType := r.token_type
    scope := r.scope
    expiresAt :=
      if truthyInt r.expires_in then some (now + r.expires_in.getD 0 * 1000)
      else none }

/-- refreshAccessToken, modelled on the token-endpoint response it
receives: non-2xx throws `Token refresh failed: status body`. -/
def refreshAccessToken (r : TokenResponse) (refreshToken : String)
    (now : Int) : Except String OAuthTokens :=
  if respOk r then .ok (refreshTokensResult r refreshToken now)
  else .error ("Token refresh failed: " ++ toString r.status ++ " " ++ r.bodyText)

/-- A 2xx refresh response whose refresh_token field is the empty string:
used to refute the literal reading of claim C2. -/
def respEmptyRefresh : TokenResponse :=
  { status := 200, bodyText := "", access_token := "T2"
    refresh_token := some "", expires_in := none
    token_type := none, scope := none }

/-- C2 counterexample: the token endpoint responds 2xx with a body that
includes a refresh_token field whose value is the empty string; the claim
says that included value is returned, but the source computes
`data.refresh_token || refreshToken`, the empty string is falsy, and the
input token R1 is returned instead. -/
theorem c2_counterexample_empty_refresh_token :
    respEmptyRefresh.refresh_token = some "" ∧
    refreshAccessToken respEmptyRefresh "R1" 0 =
      .ok (refreshTokensResult respEmptyRefresh "R1" 0) ∧
    (refreshTokensResult respEmptyRefresh "R1" 0).refreshToken = some "R1" ∧
    some "R1" ≠ (some "" : Option String) := by
  refine ⟨rfl, rfl, rfl, by decide⟩

/-- C2 (amended): for a 2xx refresh response, the returned refreshToken
preserves the input token R when the response omits refresh_token or
includes it as the empty string, and returns the response value when it is
non-empty. -/
theorem c2_refresh_token_fallback (r : TokenResponse) (R : String)
    (now : Int) (s : String) (hok : respOk r = true) :
    refreshAccessToken r R now = .ok (refreshTokensResult r R now) ∧
    (r.refresh_token = none →
      (refreshTokensResult r R now).refreshToken = some R) ∧
    (r.refresh_token = some "" →
      (refreshTokensResult r R now).refreshToken = some R) ∧
    (r.refresh_token = some s → s ≠ "" →
      (refreshTokensResult r R now).refreshToken = some s) := by
  refine ⟨by simp [refreshAccessToken, hok], ?_, ?_, ?_⟩
  · intro h; simp [refreshTokensResult, jsOrStr, h]
  · intro h; simp [refreshTokensResult, jsOrStr, h]
  · intro h hs; simp [refreshTokensResult, jsOrStr, h, hs]

/-- A 2xx refresh response that omits the refresh_token field, as in the
spec test `[access_token T2]`. -/
def respNoRefresh : TokenResponse :=
  { status := 200, bodyText := "", access_token := "T2"
    refresh_token := none, expires_in := none
    token_type := none, scope := none }

/-- C2 witness: the amended theorem applied at the response
`[access_token T2]` with no refresh_token and input R1 yields R1. -/
theorem c2_refresh_token_fallback_witness :
    respOk respNoRefresh = true ∧
    (refreshTokensResult respNoRefresh "R1" 0).refreshToken = some "R1" := by
  refine ⟨by decide, ?_⟩
  exact (c2_refresh_token_fallback respNoRefresh "R1" 0 "x" (by decide)).2.1 rfl

/-- A 2xx exchange response carrying `expires_in = 0`: the field is
present, yet the source guard `if (data.expires_in)` treats 0 as falsy. -/
def respZeroExpiry : TokenResponse :=
  { status := 200, bodyText := "", access_token := "T"
    refresh_token := none, expires_in := some 0
    token_type := none, scope := none }

/-- C3 counterexample: the provider response contains an expires_in field
(value 0), but the returned tokens have no expiresAt, refuting the claimed
iff between presence of expires_in and definedness of expiresAt. -/
theorem c3_counterexample_zero_expires_in :
    respZeroExpiry.expires_in = some 0 ∧
    respZeroExpiry.expires_in ≠ none ∧
    exchangeCodeForTokens respZeroExpiry 1000 =
      .ok (exchTokens respZeroExpiry 1000) ∧
    (exchTokens respZeroExpiry 1000).expiresAt = none := by
  refine ⟨rfl, by decide, rfl, rfl⟩

/-- C3 (amended): for every 2xx exchange or refresh response received at
time now (ms), expiresAt is defined iff expires_in is present AND nonzero
(JS truthiness), and in that case it equals now plus expires_in seconds
(now + n * 1000 ms); both functions derive it identically. -/
theorem c3_expiresAt_derivation (r : TokenResponse) (R : String)
    (now n : Int) (hok : respOk r = true) :
    exchangeCodeForTokens r now = .ok (exchTokens r now) ∧
    refreshAccessToken r R now = .ok (refreshTokensResult r R now) ∧
    ((exchTokens r now).expiresAt ≠ none ↔ truthyInt r.expires_in = true) ∧
    (r.expires_in = some n → n ≠ 0 →
      (exchTokens r now).expiresAt = some (now + n * 1000)) ∧
    (r.expires_in = none → (exchTokens r now).expiresAt = none) ∧
    (refreshTokensResult r R now).expiresAt = (exchTokens r now).expiresAt := by
  refine ⟨by simp [exchangeCodeForTokens, hok],
          by simp [refreshAccessToken, hok], ?_, ?_, ?_, ?_⟩
  · cases htr : truthyInt r.expires_in <;> simp [exchTokens, htr]
  · intro h hn; simp [exchTokens, truthyInt, h, hn]
  · intro h; simp [exchTokens, truthyInt, h]
  · simp [exchTokens, refreshTokensResult]

/-- A 2xx exchange response with expires_in 3600, as in the spec test. -/
def respExpiry3600 : TokenResponse :=
  { status := 200, bodyText := "", access_token := "T"
    refresh_token := none, expires_in := some 3600
    token_type := none, scope := none }

/-- C3 witness: a 2xx response with expires_in 3600 received at time
500000 ms yields expiresAt 500000 + 3600000. -/
theorem c3_expiresAt_derivation_witness :
    respOk respExpiry3600 = true ∧
    respExpiry3600.expires_in = some 3600 ∧
    (exchTokens respExpiry3600 500000).expiresAt = some (500000 + 3600 * 1000) := by
  refine ⟨by decide, rfl, ?_⟩
  exact (c3_expiresAt_derivation respExpiry3600 "R" 500000 3600
    (by decide)).2.2.2.1 rfl (by decide)

/-- C10: for every 2xx refresh response whose refresh_token field equals
the empty string, the returned refreshToken is the input token: the
fallback `data.refresh_token || refreshToken` applies to any falsy value,
not only to an absent field. -/
theorem c10_empty_refresh_token_fallback (r : TokenResponse) (R : String)
    (now : Int) (hok : respOk r = true) (h : r.refresh_token = some "") :
    refreshAccessToken r R now = .ok (refreshTokensResult r R now) ∧
    (refreshTokensResult r R now).refreshToken = some R := by
  refine ⟨by simp [refreshAccessToken, hok], ?_⟩
  simp [refreshTokensResult, jsOrStr, h]

/-- C10 witness: the theorem applied to a concrete 2xx response with an
empty refresh_token and input R9. -/
theorem c10_empty_refresh_token_fallback_witness :
    respOk respEmptyRefresh = true ∧
    respEmptyRefresh.refresh_token = some "" ∧
    (refreshTokensResult respEmptyRefresh "R9" 7).refreshToken = some "R9" := by
  refine ⟨by decide, rfl, ?_⟩
  exact (c10_empty_refresh_token_fallback respEmptyRefresh "R9" 7
    (by decide) rfl).2

/-- The OAuthConfig of src/core/oauth.ts. The authorizationUrl is
represented by the list of query parameters it already carries
(`authorizationParams`), since every claim about it concerns only its
query parameters; additionalParams is the entry list of the JS record in
insertion order, its keys unique. -/
structure OAuthConfig where
  serviceName : String
  authorizationParams : List (String × String)
  tokenUrl : String
  clientId : String
  clientSecret : String
  scopes : List String
  scopeSeparator : Option String
  callbackPort : Option Nat
  additionalParams : List (String × String)
deriving DecidableEq

/-- The callback port: `config.callbackPort || 8765`. -/
def oauthPort (cfg : OAuthConfig) : Nat := jsOrNat cfg.callbackPort 8765

/-- The redirect URI `http://localhost:{port}/callback`. -/
def redirectUri (cfg : OAuthConfig) : String :=
  "http://localhost:" ++ toString (oauthPort cfg) ++ "/callback"

/-- The scope separator: `config.scopeSeparator ?? " "` (nullish
coalescing, so an explicitly empty separator is kept). -/
def scopeSep (cfg : OAuthConfig) : String := cfg.scopeSeparator.getD " "

/-- URLSearchParams.set on a parameter list: replace the value at the
first occurrence of the key, drop every later occurrence, or append when
the key is absent. -/
def setParam : List (String × String) → String → String → List (String × String)
  | [], k, v => [(k, v)]
  | p :: rest, k, v =>
    if p.1 = k then (k, v) :: rest.filter (fun q => q.1 != k)
    else p :: setParam rest k v

/-- URLSearchParams.get: the value at the first occurrence of the key. -/
def getParam (ps : List (String × String)) (k : String) : Option String :=
  (ps.find? (fun p => p.1 == k)).map Prod.snd

theorem getParam_cons_eq (p : String × String) (ps : List (String × String))
    (k : String) (h : p.1 = k) : getParam (p :: ps) k = some p.2 := by
  simp [getParam, List.find?_cons_of_pos, h]

theorem getParam_cons_ne (p : String × String) (ps : List (String × String))
    (k : String) (h : p.1 ≠ k) : getParam (p :: ps) k = getParam ps k := by
  simp [getParam, List.find?_cons_of_neg, h]

theorem getParam_filter_ne (ps : List (String × String)) (k k' : String)
    (h : k' ≠ k) :
    getParam (ps.filter (fun q => q.1 != k)) k' = getParam ps k' := by
  induction ps with
  | nil => rfl
  | cons p rest ih =>
    by_cases hp : p.1 = k
    · have hdrop : (p.1 != k) = false := by simp [hp]
      rw [List.filter_cons, hdrop, if_neg (by decide)]
      rw [ih, getParam_cons_ne p rest k' (by rw [hp]; exact (Ne.symm h))]
    · have hkeep : (p.1 != k) = true := by simp [hp]
      rw [List.filter_cons, hkeep, if_pos rfl]
      by_cases hp' : p.1 = k'
      · rw [getParam_cons_eq p _ k' hp', getParam_cons_eq p rest k' hp']
      · rw [getParam_cons_ne p _ k' hp', getParam_cons_ne p rest k' hp', ih]

theorem getParam_setParam_self (ps : List (String × String)) (k v : String) :
    getParam (setParam ps k v) k = some v := by
  induction ps with
  | nil => simp [setParam, getParam]
  | cons p rest ih =>
    by_cases h : p.1 = k
    · rw [setParam, if_pos h, getParam_cons_eq (k, v) _ k rfl]
    · rw [setParam, if_neg h, getParam_cons_ne p _ k h, ih]

theorem getParam_setParam_ne (ps : List (String × String)) (k v k' : String)
    (h : k' ≠ k) : getParam (setParam ps k v) k' = getParam ps k' := by
  induction ps with
  | nil =>
    rw [setParam, getParam_cons_ne (k, v) [] k' (Ne.symm h)]
  | cons p rest ih =>
    by_cases hp : p.1 = k
    · rw [setParam, if_pos hp, getParam_cons_ne (k, v) _ k' (Ne.symm h),
        getParam_filter_ne rest k k' h,
        getParam_cons_ne p rest k' (by rw [hp]; exact (Ne.symm h))]
    · by_cases hp' : p.1 = k'
      · rw [setParam, if_neg hp, getParam_cons_eq p _ k' hp',
          getParam_cons_eq p rest k' hp']
      · rw [setParam, if_neg hp, getParam_cons_ne p _ k' hp',
          getParam_cons_ne p rest k' hp', ih]

/-- The authorization URL query parameters built by startOAuthFlow:
starting from the parameters already on authorizationUrl, set client_id,
redirect_uri, response_type=code, then scope (only when scopes is
non-empty, joined with the separator), then every additionalParams
entry. -/
def buildAuthParams (cfg : OAuthConfig) : List (String × String) :=
  let p1 := setParam cfg.authorizationParams "client_id" cfg.clientId
  let p2 := setParam p1 "redirect_uri" (redirectUri cfg)
  let p3 := setParam p2 "response_type" "code"
  let p4 :=
    if cfg.scopes.length > 0 then
      setParam p3 "scope" (String.intercalate (scopeSep cfg) cfg.scopes)
    else p3
  cfg.additionalParams.foldl (fun ps kv => setParam ps kv.1 kv.2) p4

theorem getParam_foldl_setParam_notMem (l : List (String × String))
    (ps : List (String × String)) (k : String) (h : k ∉ l.map Prod.fst) :
    getParam (l.foldl (fun ps kv => setParam ps kv.1 kv.2) ps) k =
      getParam ps k := by
  induction l generalizing ps with
  | nil => rfl
  | cons a rest ih =>
    have h1 : k ≠ a.1 ∧ k ∉ rest.map Prod.fst := by
      constructor
      · intro he; exact h (by simp [he])
      · intro hm; exact h (by simp [hm])
    rw [List.foldl_cons, ih _ h1.2, getParam_setParam_ne _ _ _ _ h1.1]

theorem getParam_foldl_setParam_mem (l : List (String × String))
    (ps : List (String × String)) (kv : String × String)
    (hnd : (l.map Prod.fst).Nodup) (h : kv ∈ l) :
    getParam (l.foldl (fun ps kv => setParam ps kv.1 kv.2) ps) kv.1 =
      some kv.2 := by
  induction l generalizing ps with
  | nil => cases h
  | cons a rest ih =>
    rw [List.map_cons, List.nodup_cons] at hnd
    rcases List.mem_cons.mp h with he | ht
    · subst he
      rw [List.foldl_cons,
        getParam_foldl_setParam_notMem rest _ kv.1 hnd.1,
        getParam_setParam_self]
    · rw [List.foldl_cons]
      exact ih _ hnd.2 ht

/-- C5: the authorization URL is authorizationUrl with client_id,
redirect_uri and response_type=code set; scope equals the scopes joined by
the separator (default single space) and is not added when scopes is
empty; every additionalParams entry is then set, last write winning on a
colliding key, so a standard parameter keeps its value exactly when its
key is not among the additionalParams keys. -/
theorem c5_auth_url_construction (cfg : OAuthConfig) (kv : String × String)
    (hnd : (cfg.additionalParams.map Prod.fst).Nodup)
    (hkv : kv ∈ cfg.additionalParams) :
    ("client_id" ∉ cfg.additionalParams.map Prod.fst →
      getParam (buildAuthParams cfg) "client_id" = some cfg.clientId) ∧
    ("redirect_uri" ∉ cfg.additionalParams.map Prod.fst →
      getParam (buildAuthParams cfg) "redirect_uri" = some (redirectUri cfg)) ∧
    ("response_type" ∉ cfg.additionalParams.map Prod.fst →
      getParam (buildAuthParams cfg) "response_type" = some "code") ∧
    (cfg.scopes ≠ [] → "scope" ∉ cfg.additionalParams.map Prod.fst →
      getParam (buildAuthParams cfg) "scope" =
        some (String.intercalate (scopeSep cfg) cfg.scopes)) ∧
    (cfg.scopes = [] → "scope" ∉ cfg.additionalParams.map Prod.fst →
      getParam (buildAuthParams cfg) "scope" =
        getParam cfg.authorizationParams "scope") ∧
    getParam (buildAuthParams cfg) kv.1 = some kv.2 := by
  refine ⟨?_, ?_, ?_, ?_, ?_, ?_⟩
  · intro h
    simp only [buildAuthParams]
    rw [getParam_foldl_setParam_notMem _ _ _ h]
    by_cases hs : cfg.scopes.length > 0
    · rw [if_pos hs, getParam_setParam_ne _ _ _ _ (by decide),
        getParam_setParam_ne _ _ _ _ (by decide),
        getParam_setParam_ne _ _ _ _ (by decide), getParam_setParam_self]
    · rw [if_neg hs, getParam_setParam_ne _ _ _ _ (by decide),
        getParam_setParam_ne _ _ _ _ (by decide), getParam_setParam_self]
  · intro h
    simp only [buildAuthParams]
    rw [getParam_foldl_setParam_notMem _ _ _ h]
    by_cases hs : cfg.scopes.length > 0
    · rw [if_pos hs, getParam_setParam_ne _ _ _ _ (by decide),
        getParam_setParam_ne _ _ _ _ (by decide), getParam_setParam_self]
    · rw [if_neg hs, getParam_setParam_ne _ _ _ _ (by decide),
        getParam_setParam_self]
  · intro h
    simp only [buildAuthParams]
    rw [getParam_foldl_setParam_notMem _ _ _ h]
    by_cases hs : cfg.scopes.length > 0
    · rw [if_pos hs, getParam_setParam_ne _ _ _ _ (by decide),
        getParam_setParam_self]
    · rw [if_neg hs, getParam_setParam_self]
  · intro hne h
    simp only [buildAuthParams]
    rw [getParam_foldl_setParam_notMem _ _ _ h,
      if_pos (List.length_pos.mpr hne), getParam_setParam_self]
  · intro hempty h
    simp only [buildAuthParams]
    rw [getParam_foldl_setParam_notMem _ _ _ h,
      if_neg (by simp [hempty]), getParam_setParam_ne _ _ _ _ (by decide),
      getParam_setParam_ne _ _ _ _ (by decide),
      getParam_setParam_ne _ _ _ _ (by decide)]
  · simp only [buildAuthParams]
    exact getParam_foldl_setParam_mem _ _ kv hnd hkv

/-- The Strava-style configuration of the spec example: scopes read and
activity:read_all with comma separator, one additional parameter. -/
def cfgStrava : OAuthConfig :=
  { serviceName := "Strava"
    authorizationParams := []
    tokenUrl := "https://www.strava.com/oauth/token"
    clientId := "cid"
    clientSecret := "sec"
    scopes := ["read", "activity:read_all"]
    scopeSeparator := some ","
    callbackPort := none
    additionalParams := [("approval_prompt", "force")] }

/-- C5 witness: on the Strava configuration the scope parameter is
read,activity:read_all (comma separator), client_id is set, and the
additional parameter is set. -/
theorem c5_auth_url_construction_witness :
    (cfgStrava.additionalParams.map Prod.fst).Nodup ∧
    ("approval_prompt", "force") ∈ cfgStrava.additionalParams ∧
    getParam (buildAuthParams cfgStrava) "scope" =
      some "read,activity:read_all" ∧
    getParam (buildAuthParams cfgStrava) "client_id" = some "cid" ∧
    getParam (buildAuthParams cfgStrava) "approval_prompt" = some "force" := by
  have h := c5_auth_url_construction cfgStrava ("approval_prompt", "force")
    (by decide) (by decide)
  refine ⟨by decide, by decide, ?_, ?_, ?_⟩
  · rw [h.2.2.2.1 (by decide) (by decide)]; rfl
  · rw [h.1 (by decide)]; rfl
  · exact h.2.2.2.2.2

/-- An incoming HTTP request to the local listener: its path and the
query parameters the handler reads (searchParams.get returns null when a
parameter is absent). -/
structure Req where
  path : String
  code : Option String
  error : Option String
  errorDescription : Option String
deriving DecidableEq

/-- What the request handler decides to do for one request. -/
inductive HandlerAction where
  | notFound
  | deny (reason : String)
  | missing
  | startExchange (code : String)
deriving DecidableEq

/-- The branch structure of the request handler in startOAuthFlow: a
non-callback path is answered 404; on /callback a truthy error parameter
denies with `errorDescription || error`, then a falsy code is a missing
code, otherwise a token exchange is started for the code. -/
def routeRequest (r : Req) : HandlerAction :=
  if r.path = "/callback" then
    if truthyStr r.error then .deny (jsOrStr r.errorDescription (r.error.getD ""))
    else if truthyStr r.code then .startExchange (r.code.getD "")
    else .missing
  else .notFound

/-- How the outer promise of startOAuthFlow settles: the typed outcomes of
the flow (success carries tokens, the failures carry their reasons). -/
inductive Outcome where
  | success (t : OAuthTokens)
  | denied (reason : String)
  | missingCode
  | exchangeFailed (msg : String)
  | timedOut
  | startupFailed (msg : String)
deriving DecidableEq

/-- The result of an awaited token exchange. -/
inductive ExchangeResult where
  | ok (t : OAuthTokens)
  | fail (msg : String)
deriving DecidableEq

/-- Events of the single-threaded event loop during one flow: a request
is dispatched to the handler, an awaited token exchange completes (the
handler resumes after its await), the 5-minute timer fires, or the server
emits a startup error. -/
inductive Event where
  | request (r : Req)
  | exchangeDone (res : ExchangeResult)
  | timer
  | serverError (msg : String)
deriving DecidableEq

/-- The observable state of one flow: whether the listener is closed, how
many times server.close() was invoked, how the promise settled (a JS
promise keeps its first settlement), how many token-exchange POSTs were
issued, the codes whose exchange is still awaited, and the HTTP status
codes written back to the browser. -/
structure FlowState where
  closed : Bool
  closeCalls : Nat
  settled : Option Outcome
  exchanges : Nat
  pendingCodes : List String
  responses : List Nat
deriving DecidableEq

/-- The state when startOAuthFlow has just started listening. -/
def flowInit : FlowState :=
  { closed := false, closeCalls := 0, settled := none, exchanges := 0
    pendingCodes := [], responses := [] }

/-- Settling the outer promise: the first resolve or reject wins, later
ones are ignored (JS promise semantics). -/
def settle (s : FlowState) (o : Outcome) : FlowState :=
  match s.settled with
  | some _ => s
  | none => { s with settled := some o }

/-- One invocation of server.close(): the listener stops accepting new
connections; every invocation is counted. -/
def closeServer (s : FlowState) : FlowState :=
  { s with closed := true, closeCalls := s.closeCalls + 1 }

/-- Writing an HTTP response with the given status code. -/
def respond (s : FlowState) (st : Nat) : FlowState :=
  { s with responses := s.responses ++ [st] }

/-- One event-loop step of the flow. A request is dispatched only while
the listener is open. The code branch of the handler issues the exchange
POST and suspends at its await, so close and settlement happen only at
the matching exchangeDone event; the error and missing-code branches
respond, close and reject synchronously; the timer (never cancelled in
the source) closes and rejects; a server error rejects without closing. -/
def step (s : FlowState) (e : Event) : FlowState :=
  match e with
  | .request r =>
    if s.closed then s
    else
      match routeRequest r with
      | .notFound => respond s 404
      | .deny reason => settle (closeServer (respond s 400)) (.denied reason)
      | .missing => settle (closeServer (respond s 400)) .missingCode
      | .startExchange c =>
        { s with exchanges := s.exchanges + 1
                 pendingCodes := s.pendingCodes ++ [c] }
  | .exchangeDone res =>
    match s.pendingCodes with
    | [] => s
    | _ :: rest =>
      match res with
      | .ok t =>
        settle (closeServer (respond { s with pendingCodes := rest } 200))
          (.success t)
      | .fail msg =>
        settle (closeServer (respond { s with pendingCodes := rest } 500))
          (.exchangeFailed msg)
  | .timer => settle (closeServer s) .timedOut
  | .serverError msg =>
    settle s (.startupFailed ("Failed to start callback server: " ++ msg))

/-- Running one flow over a whole event trace. -/
def runFlow (evs : List Event) : FlowState := evs.foldl step flowInit

/-- A successful token value used in concrete traces. -/
def tok0 : OAuthTokens :=
  { accessToken := "T", refreshToken := none, expiresIn := none
    expiresAt := none, tokenType := none, scope := none }

/-- A code-bearing callback request. -/
def codeReq : Req :=
  { path := "/callback", code := some "abc123", error := none
    errorDescription := none }

/-- C1 refutation: two code-bearing callback requests dispatched before
the first exchange completes (the handler closes the server only after
its await) both reach the exchange branch, so two token-exchange POSTs
are issued on one flow; the promise still settles once, with the first
result. The source has no already-settled guard before the exchange. -/
theorem c1_double_callback_two_exchanges :
    (runFlow [.request codeReq, .request codeReq,
              .exchangeDone (.ok tok0), .exchangeDone (.ok tok0)]).exchanges = 2 ∧
    (runFlow [.request codeReq, .request codeReq,
              .exchangeDone (.ok tok0), .exchangeDone (.ok tok0)]).settled =
      some (.success tok0) ∧
    (runFlow [.request codeReq]).exchanges = 1 := by
  refine ⟨rfl, rfl, rfl⟩

/-- C4 refutation: on a listener startup error the promise rejects with
zero server.close() invocations, and on a flow that succeeds before the
deadline the uncancelled 5-minute timer invokes server.close() a second
time, so the listener is neither closed on every exit path before
settlement nor closed exactly once per call. -/
theorem c4_close_discipline_bug :
    ((runFlow [.serverError "EADDRINUSE"]).settled =
        some (.startupFailed "Failed to start callback server: EADDRINUSE") ∧
      (runFlow [.serverError "EADDRINUSE"]).closeCalls = 0) ∧
    ((runFlow [.request codeReq, .exchangeDone (.ok tok0), .timer]).settled =
        some (.success tok0) ∧
      (runFlow [.request codeReq, .exchangeDone (.ok tok0), .timer]).closeCalls
        = 2) := by
  refine ⟨⟨rfl, rfl⟩, ⟨rfl, rfl⟩⟩

/-- A /callback request carrying an error parameter whose value is the
empty string and no code. -/
def emptyErrorReq : Req :=
  { path := "/callback", code := none, error := some ""
    errorDescription := none }

/-- C6 counterexample: a /callback request carrying an error parameter
with the empty value rejects the flow with the missing-code outcome, not
with the authorization-denied outcome, because the source tests
`if (error)` with JS truthiness. -/
theorem c6_counterexample_empty_error_param :
    emptyErrorReq.error = some "" ∧
    (runFlow [.request emptyErrorReq]).settled = some .missingCode := by
  refine ⟨rfl, rfl⟩

/-- C6 (amended): on /callback, a non-empty error parameter rejects with
the denied outcome whose reason is error_description when that is present
and non-empty, otherwise the error value; a request whose code and error
are both absent or empty rejects with the missing-code outcome. -/
theorem c6_callback_error_routing (r : Req) (e d : String)
    (hpath : r.path = "/callback") :
    (r.error = some e → e ≠ "" → r.errorDescription = some d → d ≠ "" →
      (runFlow [.request r]).settled = some (.denied d)) ∧
    (r.error = some e → e ≠ "" →
      (r.errorDescription = none ∨ r.errorDescription = some "") →
      (runFlow [.request r]).settled = some (.denied e)) ∧
    (truthyStr r.code = false → truthyStr r.error = false →
      (runFlow [.request r]).settled = some .missingCode) := by
  refine ⟨?_, ?_, ?_⟩
  · intro h1 h2 h3 h4
    simp [runFlow, flowInit, step, routeRequest, hpath, truthyStr, h1, h2,
      jsOrStr, h3, h4, settle, closeServer, respond]
  · intro h1 h2 hd
    rcases hd with hd | hd <;>
      simp [runFlow, flowInit, step, routeRequest, hpath, truthyStr, h1, h2,
        jsOrStr, hd, settle, closeServer, respond]
  · intro hc he
    simp [runFlow, flowInit, step, routeRequest, hpath, he, hc,
      settle, closeServer, respond]

/-- The denial request of the spec test: error access_denied with the
description User denied. -/
def deniedReq : Req :=
  { path := "/callback", code := none, error := some "access_denied"
    errorDescription := some "User denied" }

/-- C6 witness: the request error=access_denied with
error_description=User denied settles the flow with the denied outcome
carrying the description. -/
theorem c6_callback_error_routing_witness :
    deniedReq.path = "/callback" ∧
    (runFlow [.request deniedReq]).settled = some (.denied "User denied") := by
  refine ⟨rfl, ?_⟩
  exact (c6_callback_error_routing deniedReq "access_denied" "User denied"
    rfl).1 rfl (by decide) rfl (by decide)

/-- Recognizes an event that is a request to a path other than
/callback. -/
def isOtherPathReq : Event → Bool
  | .request q => q.path != "/callback"
  | _ => false

theorem settle_exchanges (s : FlowState) (o : Outcome) :
    (settle s o).exchanges = s.exchanges := by
  cases h : s.settled <;> simp [settle, h]

theorem settle_closeCalls (s : FlowState) (o : Outcome) :
    (settle s o).closeCalls = s.closeCalls := by
  cases h : s.settled <;> simp [settle, h]

theorem foldl_step_nonCallback (evs : List Event) (s : FlowState)
    (h : evs.all isOtherPathReq = true) (hc : s.closed = false) :
    List.foldl step s evs =
      { s with responses := s.responses ++ List.replicate evs.length 404 } := by
  induction evs generalizing s with
  | nil => simp
  | cons e rest ih =>
    rw [List.all_cons, Bool.and_eq_true] at h
    obtain ⟨he, hrest⟩ := h
    cases e with
    | request q =>
      have hq : q.path ≠ "/callback" := by simpa [isOtherPathReq] using he
      rw [List.foldl_cons]
      have hstep : step s (.request q) = respond s 404 := by
        simp [step, hc, routeRequest, hq]
      rw [hstep, ih _ hrest (by simp [respond, hc])]
      simp [respond, List.replicate_succ]
    | exchangeDone res => simp [isOtherPathReq] at he
    | timer => simp [isOtherPathReq] at he
    | serverError m => simp [isOtherPathReq] at he

/-- C7: when every arriving request targets a path other than /callback,
each is answered 404 without settling the flow, and when the 5-minute
timer fires the flow rejects with the timeout outcome with the listener
closed and no longer accepting requests; moreover a non-callback request
never changes the settlement, the closed flag or the exchange count of
any state. -/
theorem c7_timeout_and_not_found (evs : List Event) (s : FlowState) (r : Req)
    (h : evs.all isOtherPathReq = true) (hr : r.path ≠ "/callback") :
    (runFlow (evs ++ [.timer])).settled = some .timedOut ∧
    (runFlow (evs ++ [.timer])).closed = true ∧
    (runFlow (evs ++ [.timer])).closeCalls = 1 ∧
    (runFlow evs).settled = none ∧
    (runFlow evs).responses = List.replicate evs.length 404 ∧
    step (runFlow (evs ++ [.timer])) (.request r) = runFlow (evs ++ [.timer]) ∧
    (step s (.request r)).settled = s.settled ∧
    (step s (.request r)).closed = s.closed ∧
    (step s (.request r)).exchanges = s.exchanges := by
  have hrun : runFlow evs =
      { flowInit with responses := List.replicate evs.length 404 } := by
    have := foldl_step_nonCallback evs flowInit h rfl
    simpa [runFlow, flowInit] using this
  have htimer : runFlow (evs ++ [.timer]) =
      { closed := true, closeCalls := 1, settled := some .timedOut
        exchanges := 0, pendingCodes := []
        responses := List.replicate evs.length 404 } := by
    rw [runFlow, List.foldl_append,
      show List.foldl step flowInit evs = runFlow evs from rfl, hrun]
    simp [step, settle, closeServer, flowInit]
  refine ⟨by rw [htimer], by rw [htimer], by rw [htimer],
    by rw [hrun]; rfl, by rw [hrun], ?_, ?_, ?_, ?_⟩
  · rw [htimer]; simp [step]
  · cases hc : s.closed <;> simp [step, hc, routeRequest, hr, respond]
  · cases hc : s.closed <;> simp [step, hc, routeRequest, hr, respond]
  · cases hc : s.closed <;> simp [step, hc, routeRequest, hr, respond]

/-- A request to a path other than /callback, as a browser favicon probe. -/
def faviconReq : Req :=
  { path := "/favicon.ico", code := none, error := none
    errorDescription := none }

/-- C7 witness: one favicon request then the timer: the request is
answered 404 without settling the flow, and the timer rejects with the
timeout outcome and leaves the listener closed. -/
theorem c7_timeout_and_not_found_witness :
    ([Event.request faviconReq].all isOtherPathReq = true) ∧
    faviconReq.path ≠ "/callback" ∧
    (runFlow ([.request faviconReq] ++ [.timer])).settled = some .timedOut ∧
    (runFlow ([.request faviconReq] ++ [.timer])).closed = true ∧
    (runFlow [.request faviconReq]).settled = none ∧
    (runFlow [.request faviconReq]).responses = List.replicate 1 404 := by
  have h := c7_timeout_and_not_found [.request faviconReq] flowInit faviconReq
    (by decide) (by decide)
  exact ⟨by decide, by decide, h.1, h.2.1, h.2.2.2.1, h.2.2.2.2.1⟩

/-- The outward form-encoded POST request issued by exchangeCodeForTokens
(its URL, method, content type and body entries in source order). -/
structure FormRequest where
  url : String
  method : String
  contentType : String
  body : List (String × String)
deriving DecidableEq

/-- The token-exchange request exchangeCodeForTokens builds for a code and
redirect URI. -/
def exchangeRequest (cfg : OAuthConfig) (code ruri : String) : FormRequest :=
  { url := cfg.tokenUrl
    method := "POST"
    contentType := "application/x-www-form-urlencoded"
    body := [("client_id", cfg.clientId), ("client_secret", cfg.clientSecret),
             ("code", code), ("grant_type", "authorization_code"),
             ("redirect_uri", ruri)] }

/-- Recognizes an event that is a code-bearing /callback request. -/
def isCodeCallback : Event → Bool
  | .request r => r.path == "/callback" && truthyStr r.code
  | _ => false

theorem routeRequest_startExchange (r : Req) (c : String)
    (h : routeRequest r = .startExchange c) :
    r.path = "/callback" ∧ truthyStr r.code = true := by
  by_cases hp : r.path = "/callback"
  · refine ⟨hp, ?_⟩
    by_cases he : truthyStr r.error
    · simp [routeRequest, hp, he] at h
    · by_cases hcd : truthyStr r.code
      · exact hcd
      · simp [routeRequest, hp, he, hcd] at h
  · simp [routeRequest, hp] at h

theorem step_exchanges_le (s : FlowState) (e : Event) :
    (step s e).exchanges ≤
      s.exchanges + (if isCodeCallback e then 1 else 0) := by
  cases e with
  | request r =>
    by_cases hc : s.closed
    · simp only [step, hc, if_pos]
      exact Nat.le_add_right _ _
    · simp only [step, hc, Bool.false_eq_true, if_neg, not_false_iff]
      cases hroute : routeRequest r with
      | notFound => simp [respond]
      | deny reason =>
        rw [settle_exchanges]
        simp [closeServer, respond]
      | missing =>
        rw [settle_exchanges]
        simp [closeServer, respond]
      | startExchange c =>
        obtain ⟨hp, hcd⟩ := routeRequest_startExchange r c hroute
        have hcc : isCodeCallback (.request r) = true := by
          simp [isCodeCallback, hp, hcd]
        simp [hcc]
  | exchangeDone res =>
    cases hp : s.pendingCodes with
    | nil => simp [step, hp]
    | cons c rest =>
      cases res with
      | ok t =>
        simp only [step, hp]
        rw [settle_exchanges]
        simp [closeServer, respond]
      | fail msg =>
        simp only [step, hp]
        rw [settle_exchanges]
        simp [closeServer, respond]
  | timer =>
    simp only [step]
    rw [settle_exchanges]
    simp [closeServer]
  | serverError msg =>
    simp only [step]
    rw [settle_exchanges]
    exact Nat.le_add_right _ _

theorem foldl_exchanges_le (evs : List Event) (s : FlowState) :
    (List.foldl step s evs).exchanges ≤
      s.exchanges + evs.countP isCodeCallback := by
  induction evs generalizing s with
  | nil => simp
  | cons e rest ih =>
    rw [List.foldl_cons]
    have h1 := ih (step s e)
    have h2 := step_exchanges_le s e
    rw [List.countP_cons]
    cases hic : isCodeCallback e <;> (rw [hic] at h2; simp at h2 ⊢; omega)

/-- C8: the token exchange is a single form-encoded POST to tokenUrl whose
body is exactly client_id, client_secret, code,
grant_type=authorization_code and the redirect_uri that the flow set in
the authorization URL; a non-2xx response yields the exchange error
carrying the response status and body; and in any event trace the number
of exchange POSTs never exceeds the number of code-bearing callback
requests observed, so no exchange ever happens speculatively. -/
theorem c8_token_exchange_request (cfg : OAuthConfig) (code : String)
    (resp : TokenResponse) (now : Int) (evs : List Event)
    (hru : "redirect_uri" ∉ cfg.additionalParams.map Prod.fst)
    (hbad : respOk resp = false) :
    exchangeRequest cfg code (redirectUri cfg) =
      { url := cfg.tokenUrl, method := "POST"
        contentType := "application/x-www-form-urlencoded"
        body := [("client_id", cfg.clientId),
                 ("client_secret", cfg.clientSecret), ("code", code),
                 ("grant_type", "authorization_code"),
                 ("redirect_uri", redirectUri cfg)] } ∧
    getParam (buildAuthParams cfg) "redirect_uri" = some (redirectUri cfg) ∧
    exchangeCodeForTokens resp now =
      .error ("Token exchange failed: " ++ toString resp.status ++ " " ++
        resp.bodyText) ∧
    (runFlow evs).exchanges ≤ evs.countP isCodeCallback ∧
    (evs.countP isCodeCallback = 0 → (runFlow evs).exchanges = 0) := by
  have hle : (runFlow evs).exchanges ≤ evs.countP isCodeCallback := by
    have := foldl_exchanges_le evs flowInit
    simpa [runFlow, flowInit] using this
  refine ⟨rfl, ?_, ?_, hle, ?_⟩
  · simp only [buildAuthParams]
    rw [getParam_foldl_setParam_notMem _ _ _ hru]
    by_cases hs : cfg.scopes.length > 0
    · rw [if_pos hs, getParam_setParam_ne _ _ _ _ (by decide),
        getParam_setParam_ne _ _ _ _ (by decide), getParam_setParam_self]
    · rw [if_neg hs, getParam_setParam_ne _ _ _ _ (by decide),
        getParam_setParam_self]
  · simp [exchangeCodeForTokens, hbad]
  · intro h0
    rw [h0] at hle
    exact Nat.le_zero.mp hle

/-- A non-2xx token-endpoint response. -/
def resp400 : TokenResponse :=
  { status := 400, bodyText := "invalid_grant", access_token := ""
    refresh_token := none, expires_in := none, token_type := none
    scope := none }

/-- C8 witness: on the Strava configuration the exchange request body is
the five expected fields, its redirect_uri matches the one in the
authorization URL, a 400 response yields the exchange error with status
and body, and a trace with one code callback has at most one exchange. -/
theorem c8_token_exchange_request_witness :
    ("redirect_uri" ∉ cfgStrava.additionalParams.map Prod.fst) ∧
    respOk resp400 = false ∧
    getParam (buildAuthParams cfgStrava) "redirect_uri" =
      some (redirectUri cfgStrava) ∧
    exchangeCodeForTokens resp400 0 =
      .error "Token exchange failed: 400 invalid_grant" ∧
    (runFlow [.request codeReq, .exchangeDone (.ok tok0)]).exchanges ≤
      [Event.request codeReq, .exchangeDone (.ok tok0)].countP isCodeCallback := by
  have h := c8_token_exchange_request cfgStrava "abc123" resp400 0
    [.request codeReq, .exchangeDone (.ok tok0)] (by decide) (by decide)
  exact ⟨by decide, by decide, h.2.1, h.2.2.1, h.2.2.2.1⟩

/-- JS String.startsWith, at the character level. -/
def strStarts (s p : String) : Bool := p.data.isPrefixOf s.data

/-- The filter predicate of updateEnvFile: a pre-existing line is dropped
exactly when it starts with `key=` or `key =` for an updated key. -/
def matchesKey (k line : String) : Bool :=
  strStarts line (k ++ "=") || strStarts line (k ++ " =")

/-- Keeping a line: it starts with no updated key. -/
def keepLine (keys : List String) (line : String) : Bool :=
  ! keys.any (fun k => matchesKey k line)

/-- JS String.split for the newline separator, at the character level:
every maximal newline-free segment, including empty ones. -/
def splitCharsOnNl : List Char → List (List Char)
  | [] => [[]]
  | c :: rest =>
    let r := splitCharsOnNl rest
    if c = '\n' then [] :: r
    else
      match r with
      | [] => [[c]]
      | seg :: segs => (c :: seg) :: segs

/-- content.split of the source, as a list of lines. -/
def splitLines (s : String) : List String := (splitCharsOnNl s.data).map String.mk

/-- The pop condition of the source, `line.trim() === ""`: the line is
whitespace-only. -/
def isBlankLine (l : String) : Bool := l.data.all Char.isWhitespace

/-- The while-pop loop of updateEnvFile: remove whitespace-only lines
from the end of the list. -/
def dropTrailingBlankLines (ls : List String) : List String :=
  (ls.reverse.dropWhile isBlankLine).reverse

/-- The appended line for one update entry. -/
def envLine (kv : String × String) : String := kv.1 ++ "=" ++ kv.2

/-- The line list updateEnvFile writes: the lines of the existing file
(none when the file does not exist) minus lines matching an updated key,
minus trailing blank lines, then one key=value line per update in
insertion order. -/
def updateEnvFileLines (updates : List (String × String))
    (existing : Option String) : List String :=
  let keys := updates.map Prod.fst
  let kept :=
    match existing with
    | none => []
    | some content =>
      dropTrailingBlankLines ((splitLines content).filter (keepLine keys))
  kept ++ updates.map envLine

/-- Array.join with the newline separator. -/
def joinLines : List String → String
  | [] => ""
  | [l] => l
  | l :: l2 :: ls => l ++ "\n" ++ joinLines (l2 :: ls)

/-- The full file text written by updateEnvFile:
`lines.join("\n") + "\n"`. -/
def updateEnvFile (updates : List (String × String))
    (existing : Option String) : String :=
  joinLines (updateEnvFileLines updates existing) ++ "\n"

/-- C9 counterexample: the pre-existing file `A=1` followed by an empty
line (content A=1 newline newline) is updated with the single key B; the
empty line is a line of the file whose key is not among the updated keys,
yet it is not preserved: the source pops trailing whitespace-only lines
before appending. -/
theorem c9_counterexample_trailing_blank_line :
    ("" ∈ splitLines "A=1\n\n") ∧
    keepLine ["B"] "" = true ∧
    updateEnvFileLines [("B", "2")] (some "A=1\n\n") = ["A=1", "B=2"] ∧
    ("" ∉ updateEnvFileLines [("B", "2")] (some "A=1\n\n")) ∧
    updateEnvFile [("B", "2")] (some "A=1\n\n") = "A=1\nB=2\n" := by
  refine ⟨by decide, by decide, by decide, by decide, by decide⟩

theorem sep_prefix_iff (c : Char) (a : List Char) :
    ∀ b u : List Char, c ∉ a → c ∉ b →
      (((a ++ [c]) <+: (b ++ c :: u)) ↔ a = b) := by
  induction a with
  | nil =>
    intro b u _ hb
    cases b with
    | nil => simp
    | cons y b2 =>
      have hy : ¬ c = y := fun h => hb (by rw [h]; exact List.mem_cons_self y b2)
      simp [List.cons_prefix_cons, hy]
  | cons x a2 ih =>
    intro b u ha hb
    cases b with
    | nil =>
      have hx : ¬ x = c := fun h => ha (by rw [← h]; exact List.mem_cons_self x a2)
      simp [List.cons_prefix_cons, hx]
    | cons y b2 =>
      have ha2 : c ∉ a2 := fun h => ha (List.mem_cons_of_mem x h)
      have hb2 : c ∉ b2 := fun h => hb (List.mem_cons_of_mem y h)
      simp only [List.cons_append, List.cons_prefix_cons]
      rw [ih b2 u ha2 hb2]
      simp [List.cons.injEq]

theorem strStarts_envLine (k : String) (kv : String × String)
    (hk : ('=' : Char) ∉ k.data) (hk2 : ('=' : Char) ∉ kv.1.data) :
    strStarts (envLine kv) (k ++ "=") = (kv.1 == k) := by
  rw [Bool.eq_iff_iff, beq_iff_eq]
  unfold strStarts envLine
  rw [List.isPrefixOf_iff_prefix, String.data_append, String.data_append,
    String.data_append]
  rw [show ("=" : String).data = ['='] from rfl, List.append_assoc]
  rw [show ((['='] ++ kv.2.data : List Char)) = '=' :: kv.2.data from rfl]
  rw [sep_prefix_iff '=' k.data kv.1.data kv.2.data hk hk2]
  constructor
  · intro h; exact (String.ext h).symm
  · intro h; rw [h]

theorem mem_dropWhile_of_not {α : Type} (p : α → Bool) (l : List α) (a : α)
    (h : a ∈ l) (hp : p a = false) : a ∈ l.dropWhile p := by
  induction l with
  | nil => cases h
  | cons x xs ih =>
    rw [List.dropWhile_cons]
    by_cases hx : p x = true
    · rw [if_pos hx]
      rcases List.mem_cons.mp h with he | ht
      · subst he; rw [hp] at hx; cases hx
      · exact ih ht
    · rw [if_neg hx]
      exact h

theorem dropTrailingBlankLines_sublist (ls : List String) :
    List.Sublist (dropTrailingBlankLines ls) ls := by
  unfold dropTrailingBlankLines
  have h1 : List.Sublist (ls.reverse.dropWhile isBlankLine) ls.reverse :=
    List.dropWhile_sublist _
  have h2 := h1.reverse
  simpa using h2

theorem mem_dropTrailingBlankLines (ls : List String) (l : String)
    (h : l ∈ ls) (hb : isBlankLine l = false) :
    l ∈ dropTrailingBlankLines ls := by
  unfold dropTrailingBlankLines
  rw [List.mem_reverse]
  exact mem_dropWhile_of_not _ _ _ (List.mem_reverse.mpr h) hb

theorem joinLines_data_getLast (L : List String) (l0 : String)
    (hL : L.getLast? = some l0) (hne : l0.data ≠ []) :
    (joinLines L).data.getLast? = l0.data.getLast? := by
  induction L with
  | nil => simp at hL
  | cons x xs ih =>
    cases xs with
    | nil =>
      have hx : x = l0 := by simpa using hL
      subst hx
      rfl
    | cons y ys =>
      have hL2 : (y :: ys).getLast? = some l0 := by
        rw [List.getLast?_cons_cons] at hL; exact hL
      have hrec := ih hL2
      have hjoin : joinLines (x :: y :: ys) = (x ++ "\n") ++ joinLines (y :: ys) :=
        rfl
      rw [hjoin, String.data_append]
      have hjne : (joinLines (y :: ys)).data ≠ [] := by
        intro hnil
        rw [hnil] at hrec
        have h0 : l0.data.getLast? = none := by simpa using hrec.symm
        exact hne (List.getLast?_eq_none_iff.mp h0)
      rw [List.getLast?_append_of_ne_nil _ hjne]
      exact hrec

/-- C9 (amended): updateEnvFile keeps, verbatim and in original order, the
lines of the pre-existing file that match no updated key, except that
whitespace-only lines left at the end are popped; every non-blank kept
line survives; the update lines key=value are appended after the kept
lines, each updated key occurring on exactly one line of the result; and
the written text ends with exactly one trailing newline (for updates whose
keys contain no equals sign or newline and whose values contain no
newline). -/
theorem c9_update_env_file (updates : List (String × String))
    (content : String) (kv : String × String) (l : String)
    (hnd : (updates.map Prod.fst).Nodup)
    (hwf : ∀ kv2 ∈ updates, ('=' : Char) ∉ kv2.1.data ∧
      ('\n' : Char) ∉ kv2.1.data ∧ ('\n' : Char) ∉ kv2.2.data)
    (hkv : kv ∈ updates) :
    List.Sublist
      (dropTrailingBlankLines
        ((splitLines content).filter (keepLine (updates.map Prod.fst))))
      (splitLines content) ∧
    (l ∈ splitLines content → keepLine (updates.map Prod.fst) l = true →
      isBlankLine l = false →
      l ∈ dropTrailingBlankLines
        ((splitLines content).filter (keepLine (updates.map Prod.fst)))) ∧
    updateEnvFileLines updates (some content) =
      dropTrailingBlankLines
        ((splitLines content).filter (keepLine (updates.map Prod.fst))) ++
      updates.map envLine ∧
    envLine kv ∈ updateEnvFileLines updates (some content) ∧
    (updateEnvFileLines updates (some content)).countP
      (fun l2 => strStarts l2 (kv.1 ++ "=")) = 1 ∧
    (updateEnvFile updates (some content)).data.getLast? = some '\n' ∧
    (updateEnvFile updates (some content)).data.dropLast.getLast? ≠
      some '\n' := by
  have hL : updateEnvFileLines updates (some content) =
      dropTrailingBlankLines
        ((splitLines content).filter (keepLine (updates.map Prod.fst))) ++
      updates.map envLine := rfl
  have hPcount :
      (dropTrailingBlankLines
        ((splitLines content).filter
          (keepLine (updates.map Prod.fst)))).countP
        (fun l2 => strStarts l2 (kv.1 ++ "=")) = 0 := by
    rw [List.countP_eq_zero]
    intro a ha
    have haf : a ∈ (splitLines content).filter
        (keepLine (updates.map Prod.fst)) :=
      (dropTrailingBlankLines_sublist _).subset ha
    have hkeep : keepLine (updates.map Prod.fst) a = true :=
      List.of_mem_filter haf
    have hany : ((updates.map Prod.fst).any fun k => matchesKey k a) = false := by
      rw [keepLine] at hkeep
      simpa using hkeep
    rw [List.any_eq_false] at hany
    have hmk : matchesKey kv.1 a = false := by
      have := hany kv.1 (List.mem_map_of_mem Prod.fst hkv)
      simpa using this
    rw [matchesKey, Bool.or_eq_false_iff] at hmk
    simp [hmk.1]
  have hUcount :
      (updates.map envLine).countP (fun l2 => strStarts l2 (kv.1 ++ "=")) = 1 := by
    rw [List.countP_map]
    have hcongr :
        updates.countP ((fun l2 => strStarts l2 (kv.1 ++ "=")) ∘ envLine) =
          updates.countP (fun kv2 => kv2.1 == kv.1) :=
      List.countP_congr (fun kv2 hkv2 => by
        show strStarts (envLine kv2) (kv.1 ++ "=") = true ↔
          (kv2.1 == kv.1) = true
        rw [strStarts_envLine kv.1 kv2 (hwf kv hkv).1 (hwf kv2 hkv2).1])
    rw [hcongr]
    have hcnt : updates.countP (fun kv2 => kv2.1 == kv.1) =
        (updates.map Prod.fst).count kv.1 := by
      rw [List.count, List.countP_map]; rfl
    rw [hcnt]
    exact List.count_eq_one_of_mem hnd (List.mem_map_of_mem Prod.fst hkv)
  have hout : (updateEnvFile updates (some content)).data =
      (joinLines (updateEnvFileLines updates (some content))).data ++ ['\n'] := by
    rw [updateEnvFile, String.data_append]
  refine ⟨(dropTrailingBlankLines_sublist _).trans (List.filter_sublist _),
    ?_, hL, ?_, ?_, ?_, ?_⟩
  · intro h1 h2 h3
    exact mem_dropTrailingBlankLines _ _ (List.mem_filter.mpr ⟨h1, h2⟩) h3
  · rw [hL]
    exact List.mem_append_right _ (List.mem_map_of_mem envLine hkv)
  · rw [hL, List.countP_append, hPcount, hUcount]
  · rw [hout, List.getLast?_concat]
  · rw [hout, List.dropLast_concat]
    rcases List.eq_nil_or_concat updates with hnil | ⟨us, u, hu⟩
    · rw [hnil] at hkv; cases hkv
    · have hu' : updates = us ++ [u] := by rw [hu, List.concat_eq_append]
      have hmapne : List.map envLine updates ≠ [] := by
        rw [hu', List.map_append]
        simp
      have hLlast : (updateEnvFileLines updates (some content)).getLast? =
          some (envLine u) := by
        rw [hL, List.getLast?_append_of_ne_nil _ hmapne, hu', List.map_append,
          show List.map envLine [u] = [envLine u] from rfl]
        exact List.getLast?_concat _
      have humem : u ∈ updates := by
        rw [hu']
        exact List.mem_append_right _ (List.mem_cons_self u [])
      obtain ⟨hueq, hun1, hun2⟩ := hwf u humem
      have hde : (envLine u).data = u.1.data ++ '=' :: u.2.data := by
        rw [envLine, String.data_append, String.data_append, List.append_assoc]
        rfl
      have hdne : (envLine u).data ≠ [] := by rw [hde]; simp
      rw [joinLines_data_getLast _ _ hLlast hdne]
      intro hcontra
      have hcmem : '\n' ∈ (envLine u).data :=
        List.mem_of_mem_getLast? hcontra
      rw [hde] at hcmem
      rcases List.mem_append.mp hcmem with h1 | h2
      · exact hun1 h1
      · rcases List.mem_cons.mp h2 with h3 | h4
        · exact absurd h3 (by decide)
        · exact hun2 h4

/-- C9 witness: updating the file C=3 newline A=1 newline blank line D=4
newline with keys A and B keeps C=3, the interior blank line and D=4 in
order, replaces A, appends B, and ends with exactly one newline. -/
theorem c9_update_env_file_witness :
    ((([("A", "x"), ("B", "y")] : List (String × String)).map Prod.fst).Nodup) ∧
    (("A", "x") ∈ ([("A", "x"), ("B", "y")] : List (String × String))) ∧
    ("C=3" ∈ dropTrailingBlankLines
      ((splitLines "C=3\nA=1\n\nD=4\n").filter
        (keepLine (([("A", "x"), ("B", "y")] :
          List (String × String)).map Prod.fst)))) ∧
    (updateEnvFileLines [("A", "x"), ("B", "y")] (some "C=3\nA=1\n\nD=4\n")).countP
      (fun l2 => strStarts l2 ("A" ++ "=")) = 1 ∧
    (updateEnvFile [("A", "x"), ("B", "y")]
      (some "C=3\nA=1\n\nD=4\n")).data.getLast? = some '\n' ∧
    (updateEnvFile [("A", "x"), ("B", "y")]
      (some "C=3\nA=1\n\nD=4\n")).data.dropLast.getLast? ≠ some '\n' := by
  have h := c9_update_env_file [("A", "x"), ("B", "y")] "C=3\nA=1\n\nD=4\n"
    ("A", "x") "C=3" (by decide) (by decide) (by decide)
  exact ⟨by decide, by decide,
    h.2.1 (by decide) (by decide) (by decide),
    h.2.2.2.2.1, h.2.2.2.2.2.1, h.2.2.2.2.2.2⟩
